import Mathlib

/-!
Verification of the thoth build-watcher pipeline (src/app.py) against its
natural-language specification.

The development shallowly embeds the pipeline code:

  - Python optional-string options become Option String; Python truthiness of
    such an option is the predicate truthy below.
  - The builder of the skopeo copy command in the function named push-image in
    the source, including its credential handling and the password redaction
    performed with the Python str.replace method, is embedded character list
    by character list.  Python exceptions (the IndexError raised by
    rsplit when the image reference holds no slash, and the TypeError raised
    by str.replace when the password is None) become Except.error values.
  - The analyze-image step and the worker loop of the submitter become pure
    functions from a queue prefix to the list of per-item outcomes; the remote
    analysis service is an oracle parameter that may fail.
  - The event producer becomes a function from a finite prefix of the watched
    build-event stream to the list of queue writes it performs.
  - The command-line entry point becomes a startup trace (which units get
    started, in source order, and whether the configuration-conflict error is
    raised) together with a supervisor liveness poll over the worker pool the
    source actually builds.
-/

/-- Python truthiness of an optional string option: None and the empty string
are falsy, every other string is truthy. -/
def truthy : Option String → Bool
  | none => false
  | some s => ! (s == "")

/-- The list p occurs at the very start of the list s. -/
def leads (p s : List Char) : Prop := s.take p.length = p

instance decLeads (p s : List Char) : Decidable (leads p s) :=
  inferInstanceAs (Decidable (s.take p.length = p))

/-- Left-to-right, non-overlapping replacement of the pattern p by r inside a
character list, exactly as the Python str.replace method scans for a
non-empty pattern.  The Nat argument is fuel; it is always called with the
length of the scanned list, which suffices because every step consumes at
least one character of it. -/
def replaceGo (p r : List Char) : Nat → List Char → List Char
  | _, [] => []
  | 0, c :: cs => c :: cs
  | n + 1, c :: cs =>
    if p ≠ [] ∧ leads p (c :: cs) then r ++ replaceGo p r n ((c :: cs).drop p.length)
    else c :: replaceGo p r n cs

/-- Python s.replace(p, r).  For an empty pattern Python inserts r before
every character and once at the end; for a non-empty pattern it replaces
occurrences left to right without overlap. -/
def pyReplace (s p r : String) : String :=
  if p.data = [] then
    String.mk (r.data ++ List.foldr (fun c acc => c :: (r.data ++ acc)) [] s.data)
  else
    String.mk (replaceGo p.data r.data s.data.length s.data)

/-- The list p occurs as a contiguous run inside the list s (Python
substring containment). -/
def hasSub (p : List Char) : List Char → Bool
  | [] => decide (p = [])
  | c :: cs => decide (leads p (c :: cs)) || hasSub p cs

/-- The string p occurs as a contiguous substring of s. -/
def strHasSub (s p : String) : Bool := hasSub p.data s.data

/-- Everything after the last slash of s; the second component of the Python
call image.rsplit with separator slash and maxsplit one, defined when a slash
is present. -/
def afterLastSlash (s : String) : String :=
  String.mk ((s.data.reverse.takeWhile (fun c => c ≠ '/')).reverse)

/-- The skopeo executable path prefix of the copy command.  The source reads
it from the environment with a bundled default; it is an arbitrary fixed
string as far as the pipeline logic is concerned. -/
def skopeoExecPath : String := "skopeo"

/-- Configuration surface of the command-line entry point, one field per
option the modelled claims depend on. -/
structure Config where
  pushRegistry : Option String
  registryUser : Option String
  registryPassword : Option String
  noRegistryTlsVerify : Bool
  passToken : Bool
  analyzeExisting : Bool
  workersCount : Nat
deriving DecidableEq

/-- Result of a successful relocation: the destination reference returned to
the caller and the redacted command text recorded for diagnostics. -/
structure PushOutcome where
  output : String
  loggedCmd : String
deriving DecidableEq

/-- Arguments of one invocation of the relocation step, recorded so that
theorems can inspect the TLS flags and credentials actually passed. -/
structure RelocationCall where
  image : String
  pushRegistry : String
  registryUser : Option String
  registryPassword : Option String
  srcVerifyTls : Bool
  dstVerifyTls : Bool
deriving DecidableEq

/-- Arguments of one call of the remote analysis submission interface. -/
structure SubmissionCall where
  image : String
  registryUser : Option String
  registryPassword : Option String
  verifyTls : Bool
  nowait : Bool
deriving DecidableEq

/-- Embedding of the push-image function of the source.  It builds the skopeo
copy command (credential flags only when the registry user is truthy, the
colon-password part only when the password is also truthy), derives the
destination reference as push registry, slash, text after the last slash of
the image, and records the command text with every occurrence of the
password replaced by three asterisks.  Two Python exceptions are modelled as
errors, in the order the source raises them: rsplit raises IndexError when
the image holds no slash, and str.replace raises TypeError when the password
is None. -/
def pushCmdFlags (registryUser registryPassword : Option String)
    (srcVerifyTls dstVerifyTls : Bool) : String :=
  let cmd := skopeoExecPath ++ " copy "
  let cmd := if srcVerifyTls then cmd else cmd ++ "--src-tls-verify=false "
  let cmd := if dstVerifyTls then cmd else cmd ++ "--dest-tls-verify=false "
  if truthy registryUser then
    let cmd := cmd ++ "--dest-creds=" ++ registryUser.getD ""
    let cmd := if truthy registryPassword then cmd ++ ":" ++ registryPassword.getD "" else cmd
    cmd ++ " "
  else cmd

/-- Second half of the push-image embedding; the command flags above are
shared between this and the theorems about it. -/
def pushImage (image : String) (pushRegistry : String)
    (registryUser registryPassword : Option String)
    (srcVerifyTls dstVerifyTls : Bool) : Except String PushOutcome :=
  let cmd := pushCmdFlags registryUser registryPassword srcVerifyTls dstVerifyTls
  if image.data.contains '/' then
    let imageName := afterLastSlash image
    let output := pushRegistry ++ "/" ++ imageName
    let cmd := cmd ++ "docker://" ++ image ++ " docker://" ++ output
    match registryPassword with
    | none => Except.error "TypeError: replace() argument 1 must be str, not None"
    | some pw => Except.ok (PushOutcome.mk output (pyReplace cmd pw "***"))
  else
    Except.error "IndexError: list index out of range"

/-- Everything one run of the analyze-image step produced: the relocation
performed (when a push registry was configured), the submission call made,
and the analysis identifier the service returned. -/
structure AnalyzeOutcome where
  relocation : Option RelocationCall
  submission : SubmissionCall
  analysisId : String
deriving DecidableEq

/-- Embedding of the analyze-image step of the source.  When the push
registry is truthy the image is first relocated (and the relocated reference
is what gets submitted); the submission then passes the same credentials, the
destination TLS flag and the nowait flag.  The analysis parameter is the
remote analysis submission interface, an external oracle that may raise. -/
def doAnalyzeImage (analysis : SubmissionCall → Except String String)
    (outputReference : String) (pushRegistry : Option String)
    (registryUser registryPassword : Option String)
    (srcVerifyTls dstVerifyTls : Bool) : Except String AnalyzeOutcome :=
  if truthy pushRegistry then
    match pushImage outputReference (pushRegistry.getD "") registryUser registryPassword
        srcVerifyTls dstVerifyTls with
    | Except.error e => Except.error e
    | Except.ok po =>
      match analysis (SubmissionCall.mk po.output registryUser registryPassword dstVerifyTls true) with
      | Except.error e => Except.error e
      | Except.ok aid =>
        Except.ok (AnalyzeOutcome.mk
          (some (RelocationCall.mk outputReference (pushRegistry.getD "") registryUser
            registryPassword srcVerifyTls dstVerifyTls))
          (SubmissionCall.mk po.output registryUser registryPassword dstVerifyTls true) aid)
  else
    match analysis (SubmissionCall.mk outputReference registryUser registryPassword dstVerifyTls true) with
    | Except.error e => Except.error e
    | Except.ok aid =>
      Except.ok (AnalyzeOutcome.mk none
        (SubmissionCall.mk outputReference registryUser registryPassword dstVerifyTls true) aid)

/-- What the worker loop records for one dequeued reference: either a
successful submission or a caught, logged failure carrying the offending
reference and the error text. -/
inductive ItemOutcome where
  | submitted (ref : String) (outcome : AnalyzeOutcome)
  | loggedFailure (ref : String) (err : String)
deriving DecidableEq

/-- One iteration of the submitter worker loop on a dequeued reference: the
analyze-image step runs with both TLS flags set to the negation of the single
no-registry-tls-verify option, and any error is caught and logged together
with the reference. -/
def submitterStep (analysis : SubmissionCall → Except String String)
    (cfg : Config) (ref : String) : ItemOutcome :=
  match doAnalyzeImage analysis ref cfg.pushRegistry cfg.registryUser cfg.registryPassword
      (! cfg.noRegistryTlsVerify) (! cfg.noRegistryTlsVerify) with
  | Except.ok out => ItemOutcome.submitted ref out
  | Except.error e => ItemOutcome.loggedFailure ref e

/-- The submitter worker loop run over a finite prefix of the queue: one
outcome per dequeued reference, in dequeue order. -/
def submitterRun (analysis : SubmissionCall → Except String String)
    (cfg : Config) : List String → List ItemOutcome
  | [] => []
  | r :: rs => submitterStep analysis cfg r :: submitterRun analysis cfg rs

/-- The dequeued reference an outcome was recorded for. -/
def outcomeRef : ItemOutcome → String
  | ItemOutcome.submitted r _ => r
  | ItemOutcome.loggedFailure r _ => r

/-- A build lifecycle event as observed by the event producer: the build
name, its completion phase and the output image reference on its status. -/
structure BuildEvent where
  name : String
  phase : String
  outputDockerImageReference : String
deriving DecidableEq

/-- Queue writes of the event producer for one event: builds whose phase
differs from Complete are skipped, a Complete build enqueues exactly its
output image reference. -/
def eventProducerStep (e : BuildEvent) : List String :=
  if e.phase ≠ "Complete" then [] else [e.outputDockerImageReference]

/-- Queue writes of the event producer over a finite prefix of the watched
event stream, in stream order. -/
def eventProducerRun : List BuildEvent → List String
  | [] => []
  | e :: es => eventProducerStep e ++ eventProducerRun es

/-- Identity of a concurrent unit of the pipeline. -/
inductive UnitId where
  | existingProducer
  | eventProducer
  | worker (i : Nat)
deriving DecidableEq

/-- The pool of processes the supervisor polls.  The source appends exactly
the worker processes to it; neither producer is ever added. -/
def processPool (cfg : Config) : List UnitId :=
  (List.range cfg.workersCount).map UnitId.worker

/-- What one iteration of the supervisor loop does. -/
inductive SupervisorAction where
  | fatal (msg : String)
  | sleepAndContinue
deriving DecidableEq

/-- One iteration of the supervisor liveness loop: if any process of the
polled pool is not alive, a RuntimeError is raised; otherwise the loop sleeps
for the poll interval and continues. -/
def livenessPoll (alive : UnitId → Bool) (pool : List UnitId) : SupervisorAction :=
  if pool.any (fun u => ! alive u) then SupervisorAction.fatal "One of the processes failed"
  else SupervisorAction.sleepAndContinue

/-- The fixed supervisor poll interval, in seconds, from the sleep call of
the source. -/
def pollIntervalSeconds : Nat := 5

/-- Process exit status implied by a supervisor action: a raised RuntimeError
propagates out of the entry point and the interpreter exits with a non-zero
status; sleeping continues the loop with no exit. -/
def supervisorExit : SupervisorAction → Option Nat
  | SupervisorAction.fatal _ => some 1
  | SupervisorAction.sleepAndContinue => none

/-- Observable startup steps of the command-line entry point, in program
order. -/
inductive StartupEvent where
  | startExistingProducer
  | startEventProducer
  | startWorker (i : Nat)
  | configError (msg : String)
  | enterLivenessLoop
deriving DecidableEq

/-- Startup trace of the command-line entry point: when analyze-existing is
set, the existing-image producer is started first; only then is the
pass-token versus explicit-password conflict checked, and the ValueError it
raises aborts startup, so the event producer, the workers and the liveness
loop are reached only when the conflict is absent. -/
def cliStartup (cfg : Config) : List StartupEvent :=
  (if cfg.analyzeExisting then [StartupEvent.startExistingProducer] else []) ++
    (if cfg.passToken && truthy cfg.registryPassword then
      [StartupEvent.configError "Flag --pass-token is disjoint with explicit password propagation"]
    else
      StartupEvent.startEventProducer ::
        ((List.range cfg.workersCount).map StartupEvent.startWorker ++
          [StartupEvent.enterLivenessLoop]))

/-- A pool run: a schedule assigns each successive queue item to a worker of
the fixed pool; every item is dequeued by exactly one worker (the queue
delivers each item once) and processed with the shared configuration. -/
def runPool (analysis : SubmissionCall → Except String String) (cfg : Config)
    (w : Nat) : List (Fin w) → List String → List (Fin w × ItemOutcome)
  | s :: ss, r :: rs => (s, submitterStep analysis cfg r) :: runPool analysis cfg w ss rs
  | _, _ => []

/-! Helper lemmas about occurrence at the head of a list and about the
replacement scanner. -/

theorem leads_nil_iff {p : List Char} : leads p [] ↔ p = [] := by
  unfold leads
  simp [eq_comm]

theorem leads_cons_elim {p : List Char} {a : Char} {y : List Char} (h : leads p (a :: y)) :
    p = [] ∨ ∃ q, p = a :: q ∧ leads q y := by
  cases p with
  | nil => exact Or.inl rfl
  | cons b q =>
    right
    unfold leads at h
    simp only [List.length_cons, List.take_succ_cons, List.cons.injEq] at h
    exact ⟨q, by rw [h.1], h.2⟩

theorem leads_cons_of {q y : List Char} (a : Char) (h : leads q y) : leads (a :: q) (a :: y) := by
  unfold leads at h ⊢
  simp [List.take_succ_cons, h]

theorem leads_single (a : Char) (y : List Char) : leads [a] (a :: y) := by
  unfold leads
  simp [List.take_succ_cons]

theorem replaceGo_nil (p r : List Char) (n : Nat) : replaceGo p r n [] = [] := by
  cases n <;> rfl

theorem replaceGo_succ_cons (p r : List Char) (n : Nat) (c : Char) (cs : List Char) :
    replaceGo p r (n + 1) (c :: cs) =
      if p ≠ [] ∧ leads p (c :: cs) then r ++ replaceGo p r n ((c :: cs).drop p.length)
      else c :: replaceGo p r n cs := rfl

theorem hasSub_nil (p : List Char) : hasSub p [] = decide (p = []) := rfl

theorem hasSub_cons (p : List Char) (c : Char) (cs : List Char) :
    hasSub p (c :: cs) = (decide (leads p (c :: cs)) || hasSub p cs) := rfl

/-- A pattern that is free of asterisks never sits at the head of a list that
starts with an asterisk. -/
theorem not_leads_star {p : List Char} (hp : p ≠ []) (hstar : ∀ c ∈ p, c ≠ '*')
    (y : List Char) : ¬ leads p ('*' :: y) := by
  intro h
  rcases leads_cons_elim h with h0 | ⟨q, hq, _⟩
  · exact hp h0
  · exact hstar '*' (hq ▸ List.mem_cons_self _ _) rfl

theorem hasSub_star_cons {p : List Char} (hp : p ≠ []) (hstar : ∀ c ∈ p, c ≠ '*')
    (y : List Char) : hasSub p ('*' :: y) = hasSub p y := by
  rw [hasSub_cons]
  simp [not_leads_star hp hstar y]

/-- Whatever the replacement scanner leaves at the head of its output was
already at the head of its input, for any asterisk-free nonempty probe: the
scanner only ever prepends asterisks or original characters. -/
theorem leads_replaceGo (p : List Char) (hp : p ≠ []) :
    ∀ n s w, s.length ≤ n → w ≠ [] → (∀ c ∈ w, c ≠ '*') →
      leads w (replaceGo p ['*', '*', '*'] n s) → leads w s := by
  intro n
  induction n with
  | zero =>
    intro s w hs hw _ hl
    have hs0 : s = [] := List.length_eq_zero.mp (Nat.le_zero.mp hs)
    subst hs0
    rw [replaceGo_nil] at hl
    exact absurd (leads_nil_iff.mp hl) hw
  | succ n ih =>
    intro s w hs hw hstar hl
    cases s with
    | nil =>
      rw [replaceGo_nil] at hl
      exact absurd (leads_nil_iff.mp hl) hw
    | cons c cs =>
      simp only [List.length_cons] at hs
      rw [replaceGo_succ_cons] at hl
      by_cases hif : p ≠ [] ∧ leads p (c :: cs)
      · rw [if_pos hif] at hl
        have hl' : leads w ('*' :: ('*' :: '*' :: replaceGo p ['*', '*', '*'] n ((c :: cs).drop p.length))) := hl
        rcases leads_cons_elim hl' with h0 | ⟨q, hq, _⟩
        · exact absurd h0 hw
        · exact absurd rfl (hstar '*' (hq ▸ List.mem_cons_self _ _))
      · rw [if_neg hif] at hl
        rcases leads_cons_elim hl with h0 | ⟨q, hq, hlq⟩
        · exact absurd h0 hw
        · subst hq
          cases q with
          | nil => exact leads_single c cs
          | cons b bs =>
            have hq' : leads (b :: bs) cs :=
              ih cs (b :: bs) (Nat.le_of_succ_le_succ hs) (by simp)
                (fun x hx => hstar x (List.mem_cons_of_mem _ hx)) hlq
            exact leads_cons_of c hq'

/-- Core redaction lemma: replacing every occurrence of a nonempty,
asterisk-free pattern by three asterisks leaves no occurrence of the pattern
in the output. -/
theorem hasSub_replaceGo (p : List Char) (hp : p ≠ []) (hstar : ∀ c ∈ p, c ≠ '*') :
    ∀ n s, s.length ≤ n → hasSub p (replaceGo p ['*', '*', '*'] n s) = false := by
  intro n
  induction n with
  | zero =>
    intro s hs
    have hs0 : s = [] := List.length_eq_zero.mp (Nat.le_zero.mp hs)
    subst hs0
    rw [replaceGo_nil, hasSub_nil]
    simp [hp]
  | succ n ih =>
    intro s hs
    cases s with
    | nil =>
      rw [replaceGo_nil, hasSub_nil]
      simp [hp]
    | cons c cs =>
      simp only [List.length_cons] at hs
      have hcs : cs.length ≤ n := Nat.le_of_succ_le_succ hs
      rw [replaceGo_succ_cons]
      by_cases hif : p ≠ [] ∧ leads p (c :: cs)
      · rw [if_pos hif]
        have hp1 : 1 ≤ p.length := by
          cases p with
          | nil => exact absurd rfl hp
          | cons _ _ => simp
        have hdrop : ((c :: cs).drop p.length).length ≤ n := by
          rw [List.length_drop]
          simp only [List.length_cons]
          omega
        show hasSub p ('*' :: '*' :: '*' :: replaceGo p ['*', '*', '*'] n ((c :: cs).drop p.length)) = false
        rw [hasSub_star_cons hp hstar, hasSub_star_cons hp hstar, hasSub_star_cons hp hstar]
        exact ih _ hdrop
      · rw [if_neg hif, hasSub_cons, ih cs hcs]
        simp only [Bool.or_false]
        apply decide_eq_false
        intro hl
        have hback : leads p (replaceGo p ['*', '*', '*'] (n + 1) (c :: cs)) := by
          rw [replaceGo_succ_cons, if_neg hif]
          exact hl
        have hlead : leads p (c :: cs) :=
          leads_replaceGo p hp (n + 1) (c :: cs) p (by simp; omega) hp hstar hback
        exact hif ⟨hp, hlead⟩

/-- String-level redaction lemma for the Python replace call of the source,
for any nonempty password free of asterisks. -/
theorem strHasSub_pyReplace (s p : String) (hp : p.data ≠ [])
    (hstar : ∀ c ∈ p.data, c ≠ '*') :
    strHasSub (pyReplace s p "***") p = false := by
  unfold pyReplace
  rw [if_neg hp]
  show hasSub p.data (replaceGo p.data ("***").data s.data.length s.data) = false
  have h3 : ("***").data = ['*', '*', '*'] := rfl
  rw [h3]
  exact hasSub_replaceGo p.data hp hstar s.data.length s.data le_rfl

/-! Concrete inputs used by counterexamples and witnesses. -/

/-- A remote analysis oracle that always succeeds. -/
def analysisOk : SubmissionCall → Except String String := fun _ => Except.ok "analysis-1"

/-- A remote analysis oracle that always raises. -/
def analysisErr : SubmissionCall → Except String String := fun _ => Except.error "boom"

/-- Claim C5, as stated, is false: with the one-character registry password
made of a single asterisk (and a truthy registry user, so that the password
enters the command), the recorded diagnostic text of the relocation command
still contains the literal password substring, because every occurrence is
replaced by three asterisks, which themselves contain it. -/
theorem c5_counterexample :
    pushImage "r/a" "p" (some "bot") (some "*") true true =
      Except.ok (PushOutcome.mk "p/a"
        "skopeo copy --dest-creds=bot:*** docker://r/a docker://p/a") ∧
    strHasSub "skopeo copy --dest-creds=bot:*** docker://r/a docker://p/a" "*" = true := by
  constructor
  · rfl
  · rfl

/-- Claim C5 (amended): for every configured non-empty registry password that
does not contain the asterisk character, the diagnostic text of the
relocation copy command recorded by the push-image step never contains the
literal password substring; every occurrence is replaced before logging.  (A
password containing an asterisk can survive redaction, since the replacement
text consists of asterisks.) -/
theorem c5_redaction_no_password_in_log (image pushReg : String) (user : Option String)
    (pw : String) (sTls dTls : Bool) (po : PushOutcome)
    (hpw : pw.data ≠ []) (hstar : ∀ c ∈ pw.data, c ≠ '*')
    (h : pushImage image pushReg user (some pw) sTls dTls = Except.ok po) :
    strHasSub po.loggedCmd pw = false := by
  unfold pushImage at h
  split at h
  · simp only [Except.ok.injEq] at h
    subst h
    exact strHasSub_pyReplace _ pw hpw hstar
  · exact Except.noConfusion h

/-- Witness for the amended claim C5 at a concrete relocation with password
secret. -/
theorem c5_witness :
    strHasSub (PushOutcome.mk "p/a"
      "skopeo copy --dest-creds=u:*** docker://r/a docker://p/a").loggedCmd "secret" = false :=
  c5_redaction_no_password_in_log "r/a" "p" (some "u") "secret" true true
    (PushOutcome.mk "p/a" "skopeo copy --dest-creds=u:*** docker://r/a docker://p/a")
    (by decide) (by decide) rfl

/-- Claim C8: the spec and the own documentation of the source make
relocation credentials optional, but the code always feeds the configured
password to the redacting replace call, so with no registry user and no
registry password configured the push-image step raises a TypeError (replace
rejects None) before the copy command ever runs, instead of copying without
credential flags and returning the destination reference. -/
theorem c8_missing_password_raises :
    pushImage "registry.internal/ns/app:latest" "push.example.com" none none true true =
      Except.error "TypeError: replace() argument 1 must be str, not None" := rfl

/-- A successful relocation returns the push registry, a slash, and the text
after the last slash of the source image. -/
theorem pushImage_ok_output (image pushRegistry : String) (ru rp : Option String)
    (s d : Bool) (po : PushOutcome)
    (h : pushImage image pushRegistry ru rp s d = Except.ok po) :
    po.output = pushRegistry ++ "/" ++ afterLastSlash image := by
  cases rp with
  | none =>
    unfold pushImage at h
    split at h
    · exact Except.noConfusion h
    · exact Except.noConfusion h
  | some pw =>
    unfold pushImage at h
    split at h
    · simp only [Except.ok.injEq] at h
      subst h
      rfl
    · exact Except.noConfusion h

/-- Shape of a successful analyze-image run: without a truthy push registry
the original reference is submitted unchanged and no relocation happens; with
one, the relocation call carries exactly the given arguments and the
submitted reference is the relocated one. -/
theorem doAnalyzeImage_ok_shape (analysis : SubmissionCall → Except String String)
    (ref : String) (pr ru rp : Option String) (s d : Bool) (out : AnalyzeOutcome)
    (h : doAnalyzeImage analysis ref pr ru rp s d = Except.ok out) :
    (truthy pr = false →
      out.relocation = none ∧ out.submission = SubmissionCall.mk ref ru rp d true) ∧
    (truthy pr = true →
      out.relocation = some (RelocationCall.mk ref (pr.getD "") ru rp s d) ∧
      out.submission =
        SubmissionCall.mk (pr.getD "" ++ "/" ++ afterLastSlash ref) ru rp d true) := by
  unfold doAnalyzeImage at h
  by_cases hpr : truthy pr = true
  · rw [if_pos hpr] at h
    constructor
    · intro hf
      rw [hpr] at hf
      exact absurd hf (by simp)
    · intro _
      split at h
      · exact Except.noConfusion h
      · rename_i po hpi
        split at h
        · exact Except.noConfusion h
        · rename_i aid han
          simp only [Except.ok.injEq] at h
          subst h
          refine ⟨rfl, ?_⟩
          show SubmissionCall.mk po.output ru rp d true = _
          rw [pushImage_ok_output ref (pr.getD "") ru rp s d po hpi]
  · rw [if_neg hpr] at h
    have hf : truthy pr = false := by
      cases hx : truthy pr with
      | false => rfl
      | true => exact absurd hx hpr
    constructor
    · intro _
      split at h
      · exact Except.noConfusion h
      · rename_i aid han
        simp only [Except.ok.injEq] at h
        subst h
        exact ⟨rfl, rfl⟩
    · intro ht
      rw [hf] at ht
      exact absurd ht (by simp)

/-- Claim C3: for every reference a worker takes from the queue and actually
submits, the reference passed to the remote analysis submission interface is
the original reference when the push registry option is unset or empty, and
is the push registry, a slash, and the text after the last slash of the
original reference when the option is set. -/
theorem c3_submitted_reference (analysis : SubmissionCall → Except String String)
    (cfg : Config) (ref : String) (out : AnalyzeOutcome)
    (h : submitterStep analysis cfg ref = ItemOutcome.submitted ref out) :
    (truthy cfg.pushRegistry = false → out.submission.image = ref) ∧
    (truthy cfg.pushRegistry = true →
      out.submission.image = cfg.pushRegistry.getD "" ++ "/" ++ afterLastSlash ref) := by
  unfold submitterStep at h
  split at h
  · rename_i out' hda
    injection h with h1 h2
    subst h2
    have hs := doAnalyzeImage_ok_shape analysis ref cfg.pushRegistry cfg.registryUser
      cfg.registryPassword (! cfg.noRegistryTlsVerify) (! cfg.noRegistryTlsVerify) out' hda
    constructor
    · intro hf
      rw [(hs.1 hf).2]
    · intro ht
      rw [(hs.2 ht).2]
  · exact ItemOutcome.noConfusion h

/-- Claim C10: in every worker invocation the TLS-verification flag of the
submission call and both TLS-verification flags of the relocation call (when
a relocation happens) all equal the negation of the single
no-registry-tls-verify option, so source and destination TLS verification can
never differ. -/
theorem c10_tls_flags_uniform (analysis : SubmissionCall → Except String String)
    (cfg : Config) (ref : String) (out : AnalyzeOutcome)
    (h : submitterStep analysis cfg ref = ItemOutcome.submitted ref out) :
    out.submission.verifyTls = ! cfg.noRegistryTlsVerify ∧
    ∀ rc, out.relocation = some rc →
      rc.srcVerifyTls = ! cfg.noRegistryTlsVerify ∧
      rc.dstVerifyTls = ! cfg.noRegistryTlsVerify := by
  unfold submitterStep at h
  split at h
  · rename_i out' hda
    injection h with h1 h2
    subst h2
    have hs := doAnalyzeImage_ok_shape analysis ref cfg.pushRegistry cfg.registryUser
      cfg.registryPassword (! cfg.noRegistryTlsVerify) (! cfg.noRegistryTlsVerify) out' hda
    cases hpr : truthy cfg.pushRegistry with
    | false =>
      have h1 := hs.1 hpr
      constructor
      · rw [h1.2]
      · intro rc hrc
        rw [h1.1] at hrc
        exact Option.noConfusion hrc
    | true =>
      have h2 := hs.2 hpr
      constructor
      · rw [h2.2]
      · intro rc hrc
        rw [h2.1] at hrc
        injection hrc with hrc'
        subst hrc'
        exact ⟨rfl, rfl⟩
  · exact ItemOutcome.noConfusion h

/-- Concrete configuration with a push registry and full credentials. -/
def cfgC3 : Config := Config.mk (some "reg.example.com") (some "u") (some "pw") false false false 1

def refC3 : String := "registry.svc:5000/ns/app:latest"

def subC3 : SubmissionCall :=
  SubmissionCall.mk "reg.example.com/app:latest" (some "u") (some "pw") true true

def relocC3 : RelocationCall :=
  RelocationCall.mk refC3 "reg.example.com" (some "u") (some "pw") true true

def outC3 : AnalyzeOutcome := AnalyzeOutcome.mk (some relocC3) subC3 "analysis-1"

/-- Witness for claim C3 at a concrete queue item with a push registry set. -/
theorem c3_witness :
    outC3.submission.image = cfgC3.pushRegistry.getD "" ++ "/" ++ afterLastSlash refC3 :=
  (c3_submitted_reference analysisOk cfgC3 refC3 outC3 (by rfl)).2 rfl

/-- Witness for claim C10 at the same concrete worker invocation. -/
theorem c10_witness :
    outC3.submission.verifyTls = ! cfgC3.noRegistryTlsVerify ∧
    relocC3.srcVerifyTls = ! cfgC3.noRegistryTlsVerify ∧
    relocC3.dstVerifyTls = ! cfgC3.noRegistryTlsVerify :=
  ⟨(c10_tls_flags_uniform analysisOk cfgC3 refC3 outC3 (by rfl)).1,
    (c10_tls_flags_uniform analysisOk cfgC3 refC3 outC3 (by rfl)).2 relocC3 rfl⟩

/-- Claim C4: the event producer enqueues nothing for a build event whose
phase is not Complete and enqueues exactly the output image reference of the
build status for a Complete event; over any finite prefix of the stream the
queue writes are exactly the references of the Complete events, in order. -/
theorem c4_event_producer_filters (events : List BuildEvent) :
    eventProducerRun events =
      (events.filter (fun e => e.phase == "Complete")).map
        (fun e => e.outputDockerImageReference) := by
  induction events with
  | nil => rfl
  | cons e es ih =>
    show eventProducerStep e ++ eventProducerRun es = _
    by_cases h : e.phase = "Complete"
    · simp [eventProducerStep, List.filter_cons, h, ih]
    · simp [eventProducerStep, List.filter_cons, h, ih]

/-- The worker loop distributes over queue segments. -/
theorem submitterRun_append (analysis : SubmissionCall → Except String String)
    (cfg : Config) (xs ys : List String) :
    submitterRun analysis cfg (xs ++ ys) =
      submitterRun analysis cfg xs ++ submitterRun analysis cfg ys := by
  induction xs with
  | nil => rfl
  | cons x xs ih => simp [submitterRun, ih]

/-- Every worker-loop iteration records the reference it dequeued. -/
theorem outcomeRef_submitterStep (analysis : SubmissionCall → Except String String)
    (cfg : Config) (r : String) : outcomeRef (submitterStep analysis cfg r) = r := by
  unfold submitterStep
  split <;> rfl

/-- The worker loop attempts exactly the dequeued references, in order. -/
theorem submitterRun_map_ref (analysis : SubmissionCall → Except String String)
    (cfg : Config) (refs : List String) :
    (submitterRun analysis cfg refs).map outcomeRef = refs := by
  induction refs with
  | nil => rfl
  | cons r rs ih => simp [submitterRun, outcomeRef_submitterStep, ih]

/-- Claim C6: an exception raised while relocating or submitting one queue
item is caught inside the worker loop and recorded as a logged failure
carrying the offending reference; the loop output around the failed item is
exactly what it would be anyway, so the failure terminates nothing, every
later item is still attempted, and the attempted references are exactly the
dequeued ones (the failed item is not re-enqueued and nothing is retried). -/
theorem c6_worker_isolates_item_failure (analysis : SubmissionCall → Except String String)
    (cfg : Config) (before after : List String) (ref err : String)
    (hfail : doAnalyzeImage analysis ref cfg.pushRegistry cfg.registryUser cfg.registryPassword
      (! cfg.noRegistryTlsVerify) (! cfg.noRegistryTlsVerify) = Except.error err) :
    submitterRun analysis cfg (before ++ ref :: after) =
      submitterRun analysis cfg before ++
        ItemOutcome.loggedFailure ref err :: submitterRun analysis cfg after ∧
    (submitterRun analysis cfg (before ++ ref :: after)).map outcomeRef =
      before ++ ref :: after := by
  have hstep : submitterStep analysis cfg ref = ItemOutcome.loggedFailure ref err := by
    unfold submitterStep
    rw [hfail]
  constructor
  · rw [submitterRun_append]
    simp [submitterRun, hstep]
  · rw [submitterRun_map_ref]

/-- Concrete configuration with no push registry and no credentials. -/
def cfgC6 : Config := Config.mk none none none false false false 1

/-- Witness for claim C6: the middle item fails (the analysis service
raises) and the surrounding items are still processed. -/
theorem c6_witness :
    submitterRun analysisErr cfgC6 (["a/x"] ++ "a/b" :: ["a/y"]) =
      submitterRun analysisErr cfgC6 ["a/x"] ++
        ItemOutcome.loggedFailure "a/b" "boom" :: submitterRun analysisErr cfgC6 ["a/y"] ∧
    (submitterRun analysisErr cfgC6 (["a/x"] ++ "a/b" :: ["a/y"])).map outcomeRef =
      ["a/x"] ++ "a/b" :: ["a/y"] :=
  c6_worker_isolates_item_failure analysisErr cfgC6 ["a/x"] ["a/y"] "a/b" "boom" rfl

/-- Claim C9: for any schedule assigning each of the N enqueued references to
a worker of the pool (any pool size), exactly N submission attempts occur, in
queue order, each against a distinct enqueued reference: none is lost, none
is attempted twice. -/
theorem c9_exactly_once (analysis : SubmissionCall → Except String String)
    (cfg : Config) (w : Nat) (schedule : List (Fin w)) (refs : List String)
    (hlen : schedule.length = refs.length) (hnodup : refs.Nodup) :
    (runPool analysis cfg w schedule refs).length = refs.length ∧
    (runPool analysis cfg w schedule refs).map (fun pr => outcomeRef pr.2) = refs ∧
    ((runPool analysis cfg w schedule refs).map (fun pr => outcomeRef pr.2)).Nodup := by
  have hmap : ∀ (ss : List (Fin w)) (rs : List String), ss.length = rs.length →
      (runPool analysis cfg w ss rs).map (fun pr => outcomeRef pr.2) = rs := by
    intro ss
    induction ss with
    | nil =>
      intro rs h
      cases rs with
      | nil => rfl
      | cons r rs => simp at h
    | cons s ss ih =>
      intro rs h
      cases rs with
      | nil => simp at h
      | cons r rs =>
        simp only [List.length_cons] at h
        simp [runPool, outcomeRef_submitterStep, ih rs (by omega)]
  refine ⟨?_, hmap schedule refs hlen, ?_⟩
  · have hc := congrArg List.length (hmap schedule refs hlen)
    simpa using hc
  · rw [hmap schedule refs hlen]
    exact hnodup

/-- Witness for claim C9: three distinct references distributed over two
workers. -/
theorem c9_witness :
    (runPool analysisOk cfgC6 2 [0, 1, 0] ["r/a", "r/b", "r/c"]).length =
      (["r/a", "r/b", "r/c"] : List String).length ∧
    (runPool analysisOk cfgC6 2 [0, 1, 0] ["r/a", "r/b", "r/c"]).map
      (fun pr => outcomeRef pr.2) = ["r/a", "r/b", "r/c"] ∧
    ((runPool analysisOk cfgC6 2 [0, 1, 0] ["r/a", "r/b", "r/c"]).map
      (fun pr => outcomeRef pr.2)).Nodup :=
  c9_exactly_once analysisOk cfgC6 2 [0, 1, 0] ["r/a", "r/b", "r/c"] rfl (by decide)

/-- Concrete configuration with pass-token, an explicit password, and the
analyze-existing backfill enabled. -/
def cfgC1 : Config := Config.mk none none (some "secret") false true true 2

/-- Claim C1, as stated, is false: with pass-token and an explicit registry
password both supplied and analyze-existing enabled, the startup trace starts
the existing-image producer (a producer unit, free to enqueue items) before
the configuration-conflict error is raised, so startup does not fail before
any producer is started. -/
theorem c1_counterexample :
    cfgC1.passToken = true ∧ truthy cfgC1.registryPassword = true ∧
    cliStartup cfgC1 =
      [StartupEvent.startExistingProducer,
        StartupEvent.configError
          "Flag --pass-token is disjoint with explicit password propagation"] :=
  ⟨rfl, rfl, rfl⟩

/-- Claim C1 (amended): when pass-token and an explicit registry password are
both supplied, startup raises the configuration-conflict error before the
event producer or any worker is started and never reaches the liveness loop,
so no queue item is ever processed; the existing-image producer, when
analyze-existing is set, has however already been started before the check
and may enqueue items. -/
theorem c1_conflict_aborts_startup (cfg : Config)
    (hpt : cfg.passToken = true) (hpw : truthy cfg.registryPassword = true) :
    StartupEvent.configError
        "Flag --pass-token is disjoint with explicit password propagation" ∈ cliStartup cfg ∧
    StartupEvent.startEventProducer ∉ cliStartup cfg ∧
    (∀ i, StartupEvent.startWorker i ∉ cliStartup cfg) ∧
    StartupEvent.enterLivenessLoop ∉ cliStartup cfg := by
  unfold cliStartup
  rw [hpt, hpw]
  by_cases ha : cfg.analyzeExisting = true
  · rw [if_pos ha]
    refine ⟨by simp, by simp, fun i => by simp, by simp⟩
  · rw [if_neg ha]
    refine ⟨by simp, by simp, fun i => by simp, by simp⟩

/-- Witness for the amended claim C1 at the concrete conflicting
configuration. -/
theorem c1_witness :
    StartupEvent.configError
        "Flag --pass-token is disjoint with explicit password propagation" ∈ cliStartup cfgC1 ∧
    StartupEvent.startEventProducer ∉ cliStartup cfgC1 ∧
    StartupEvent.startWorker 0 ∉ cliStartup cfgC1 ∧
    StartupEvent.enterLivenessLoop ∉ cliStartup cfgC1 :=
  ⟨(c1_conflict_aborts_startup cfgC1 rfl rfl).1,
    (c1_conflict_aborts_startup cfgC1 rfl rfl).2.1,
    (c1_conflict_aborts_startup cfgC1 rfl rfl).2.2.1 0,
    (c1_conflict_aborts_startup cfgC1 rfl rfl).2.2.2⟩

/-- Concrete two-worker configuration. -/
def cfgC2 : Config := Config.mk none none none false false false 2

/-- Aliveness state in which only the event producer has terminated. -/
def aliveC2 : UnitId → Bool
  | UnitId.eventProducer => false
  | _ => true

/-- Claim C2, as stated, is false: with the event producer dead and every
worker alive, the supervisor poll over the pool the source actually builds
(workers only) finds nothing wrong and sleeps on, so the death of the event
producer is not treated like the death of a worker. -/
theorem c2_counterexample :
    aliveC2 UnitId.eventProducer = false ∧
    livenessPoll aliveC2 (processPool cfgC2) = SupervisorAction.sleepAndContinue :=
  ⟨rfl, rfl⟩

/-- Claim C2 (amended): the supervisor liveness poll monitors only the worker
pool; the event producer is never in the polled pool, and whenever every
worker is alive the poll sleeps and continues regardless of the event
producer having terminated, so its death is not detected as a liveness
failure. -/
theorem c2_event_producer_not_monitored (cfg : Config) (alive : UnitId → Bool)
    (hworkers : ∀ i, alive (UnitId.worker i) = true) :
    UnitId.eventProducer ∉ processPool cfg ∧
    livenessPoll alive (processPool cfg) = SupervisorAction.sleepAndContinue := by
  constructor
  · intro hmem
    unfold processPool at hmem
    rcases List.mem_map.mp hmem with ⟨i, _, hcon⟩
    exact UnitId.noConfusion hcon
  · have hany : (processPool cfg).any (fun u => ! alive u) = false := by
      apply List.any_eq_false.mpr
      intro u hu
      unfold processPool at hu
      rcases List.mem_map.mp hu with ⟨i, _, rfl⟩
      simp [hworkers i]
    unfold livenessPoll
    rw [hany]
    simp

/-- Witness for the amended claim C2 at the concrete dead-producer state. -/
theorem c2_witness :
    UnitId.eventProducer ∉ processPool cfgC2 ∧
    livenessPoll aliveC2 (processPool cfgC2) = SupervisorAction.sleepAndContinue :=
  c2_event_producer_not_monitored cfgC2 aliveC2 (fun i => rfl)

/-- Claim C7: whenever any worker of the pool is not alive (whatever the
state of the other units, alive or not), the very next iteration of the
fixed-interval liveness poll (interval five seconds) raises the fatal
RuntimeError, which terminates the whole process with a non-zero exit
status; the loop never continues with fewer workers. -/
theorem c7_dead_worker_fatal (cfg : Config) (alive : UnitId → Bool) (i : Nat)
    (hi : i < cfg.workersCount) (hdead : alive (UnitId.worker i) = false) :
    livenessPoll alive (processPool cfg) =
      SupervisorAction.fatal "One of the processes failed" ∧
    supervisorExit (livenessPoll alive (processPool cfg)) = some 1 ∧
    pollIntervalSeconds = 5 := by
  have hany : (processPool cfg).any (fun u => ! alive u) = true := by
    apply List.any_eq_true.mpr
    exact ⟨UnitId.worker i, List.mem_map.mpr ⟨i, List.mem_range.mpr hi, rfl⟩, by simp [hdead]⟩
  have hfatal : livenessPoll alive (processPool cfg) =
      SupervisorAction.fatal "One of the processes failed" := by
    unfold livenessPoll
    rw [hany]
    simp
  exact ⟨hfatal, by rw [hfatal]; rfl, rfl⟩

/-- Concrete three-worker configuration. -/
def cfgC7 : Config := Config.mk none none none false false false 3

/-- Aliveness state in which exactly the second worker has crashed and every
other unit is alive. -/
def aliveC7 : UnitId → Bool
  | UnitId.worker 1 => false
  | _ => true

/-- Witness for claim C7 at the concrete one-dead-worker state. -/
theorem c7_witness :
    livenessPoll aliveC7 (processPool cfgC7) =
      SupervisorAction.fatal "One of the processes failed" ∧
    supervisorExit (livenessPoll aliveC7 (processPool cfgC7)) = some 1 ∧
    pollIntervalSeconds = 5 :=
  c7_dead_worker_fatal cfgC7 aliveC7 1 (by decide) rfl
